import Mathlib

/-! Ditto client-side core: remote memory allocator (`src/client_mm.cc`), eviction
history tracker (`src/lw_history.h`) and eviction priorities (`src/priority.h`).

A shallow embedding of `ClientMM` / `ClientUniformMM`, `LWHistory` and the classes
derived from `Priority`, and theorems about their contracts.

Conventions of the embedding

* Machine integers are natural numbers; every place where the C++ arithmetic is
  performed at a fixed width carries an explicit `% 2 ^ w`.
* `std::queue<RemoteBlock>` is a `List` whose head is the front of the queue:
  `push` appends at the back, `front`/`pop` take the head.
* `std::vector` is a `List`, `push_back` appends at the back.
* `assert(false)` and undefined behaviour (division by zero, overflow of the
  signed loop counter) end the run with a `Fault`.
* `printd` only writes to the log and is not part of the state.
-/

namespace Ditto

/-- Modelled from the spec: `RemoteSegment` is declared in `client_mm.h`, which is
not part of the sources at hand. Fields are those of spec section 3
(`base_address, remote_access_key, server_id`) with the widths of the parameters of
`ClientMM::add_segment` (`uint64_t`, `uint32_t`, `uint16_t`). -/
structure RemoteSegment where
  addr : Nat
  rkey : Nat
  server : Nat
deriving DecidableEq, Repr

/-- Modelled from the spec: `RemoteBlock` is declared in `client_mm.h`, which is
not part of the sources at hand. Fields are those of spec section 3
(`address, remote_access_key, size, server_id`) with the widths of the parameters of
the four-argument `ClientUniformMM::free` (`uint64_t`, `uint32_t`, `uint32_t`,
`uint16_t`). -/
structure RemoteBlock where
  addr : Nat
  rkey : Nat
  size : Nat
  server : Nat
deriving DecidableEq, Repr

/-- Modelled from the spec: `DMCConfig` is declared in `dmc_utils.h`, which is not
part of the sources at hand; only the two fields read by the constructors are kept. -/
structure DMCConfig where
  segment_size : Nat
  block_size : Nat
deriving DecidableEq, Repr

/-- The ways a call can end the program instead of returning. -/
inductive Fault where
  /-- The `assert(false)` of `ClientMM::add_segment`. -/
  | assertFailed
  /-- Undefined behaviour: `segment_size_ / uni_block_size_` with a zero divisor, or
  `i++` past `INT_MAX` in the block loop. -/
  | undefinedBehaviour
deriving DecidableEq, Repr

deriving instance DecidableEq for Except

/-- The members of `ClientUniformMM` together with those inherited from `ClientMM`.
`uni_block_size_` is a 32-bit unsigned value (it is copied into the `uint32_t`
`size` field and compared with the `uint32_t` request size). -/
structure ClientUniformMM where
  segment_size_ : Nat
  uni_block_size_ : Nat
  remote_segment_list_ : List RemoteSegment
  free_block_list_ : List RemoteBlock
  used_block_map_ : List RemoteBlock
deriving DecidableEq, Repr

/-- The out-parameter and return value of `alloc` together with the new state.
`r_block = none` means that `*r_block` was not written. -/
structure AllocResult where
  ret : Int
  r_block : Option RemoteBlock
  mm : ClientUniformMM
deriving DecidableEq, Repr

/-- `ClientMM::ClientMM` followed by `ClientUniformMM::ClientUniformMM`. -/
def ClientUniformMM.new (conf : DMCConfig) : ClientUniformMM :=
  { segment_size_ := conf.segment_size
    uni_block_size_ := conf.block_size
    remote_segment_list_ := []
    free_block_list_ := []
    used_block_map_ := [] }

/-- `ClientMM::add_segment`: abort on a registered base address, otherwise
`push_back` the new segment. Returns the new segment list. -/
def ClientMM.add_segment (segs : List RemoteSegment) (r_addr rkey server : Nat) :
    Except Fault (List RemoteSegment) :=
  if segs.any (fun s => s.addr == r_addr) then
    .error .assertFailed
  else
    .ok (segs ++ [{ addr := r_addr, rkey := rkey, server := server }])

/-- The block built by iteration `i` of the loop in `ClientUniformMM::add_segment`.
`i * uni_block_size_` is a product of an `int` and a 32-bit unsigned value, hence
taken modulo `2 ^ 32`; the sum with the 64-bit `r_addr` is taken modulo `2 ^ 64`. -/
def ClientUniformMM.new_block (mm : ClientUniformMM) (r_addr rkey server i : Nat) :
    RemoteBlock :=
  { addr := (r_addr + (i * mm.uni_block_size_) % 2 ^ 32) % 2 ^ 64
    rkey := rkey
    size := mm.uni_block_size_
    server := server }

/-- `ClientUniformMM::add_segment`. -/
def ClientUniformMM.add_segment (mm : ClientUniformMM) (r_addr rkey server : Nat) :
    Except Fault ClientUniformMM :=
  match ClientMM.add_segment mm.remote_segment_list_ r_addr rkey server with
  | .error e => .error e
  | .ok segs =>
    if mm.uni_block_size_ = 0 then
      .error .undefinedBehaviour
    else
      let num_blocks := (mm.segment_size_ / mm.uni_block_size_) % 2 ^ 32
      if 2 ^ 31 ≤ num_blocks then
        .error .undefinedBehaviour
      else
        .ok { mm with
              remote_segment_list_ := segs
              free_block_list_ := mm.free_block_list_ ++
                (List.range num_blocks).map (mm.new_block r_addr rkey server) }

/-- `ClientUniformMM::alloc`. -/
def ClientUniformMM.alloc (mm : ClientUniformMM) (size : Nat) : AllocResult :=
  if size > mm.uni_block_size_ then
    { ret := -1, r_block := none, mm := mm }
  else
    match mm.free_block_list_ with
    | [] => { ret := -1, r_block := none, mm := mm }
    | block :: rest =>
      { ret := 0
        r_block := some block
        mm := { mm with
                free_block_list_ := rest
                used_block_map_ := mm.used_block_map_ ++ [block] } }

/-- `ClientUniformMM::free(const RemoteBlock*)`: return value and new state. -/
def ClientUniformMM.free (mm : ClientUniformMM) (r_block : RemoteBlock) :
    Int × ClientUniformMM :=
  let rb := { r_block with size := mm.uni_block_size_ }
  (0, { mm with free_block_list_ := mm.free_block_list_ ++ [rb] })

/-- `ClientUniformMM::free(uint64_t, uint32_t, uint32_t, uint16_t)`: return value and
new state. The `size` argument is not read. -/
def ClientUniformMM.free4 (mm : ClientUniformMM) (r_addr rkey _size server : Nat) :
    Int × ClientUniformMM :=
  let rb : RemoteBlock :=
    { addr := r_addr, rkey := rkey, size := mm.uni_block_size_, server := server }
  (0, { mm with free_block_list_ := mm.free_block_list_ ++ [rb] })

/-- `ClientUniformMM::get_free_size`: both products and the difference are 64-bit
unsigned. -/
def ClientUniformMM.get_free_size (mm : ClientUniformMM) : Nat :=
  let totoal_size := (mm.remote_segment_list_.length * mm.segment_size_) % 2 ^ 64
  let allocated_size := (mm.used_block_map_.length * mm.uni_block_size_) % 2 ^ 64
  (totoal_size + 2 ^ 64 - allocated_size) % 2 ^ 64

/-- `ClientUniformMM::check_integrity`. A zero `uni_block_size_` is a division by
zero. -/
def ClientUniformMM.check_integrity (mm : ClientUniformMM) : Except Fault Bool :=
  if mm.uni_block_size_ = 0 then
    .error .undefinedBehaviour
  else
    let sum := (mm.used_block_map_.length + mm.free_block_list_.length) % 2 ^ 64
    let total :=
      ((mm.remote_segment_list_.length * mm.segment_size_) % 2 ^ 64) / mm.uni_block_size_
    if sum ≠ total then .ok false else .ok true

/-- `ClientUniformMM::need_amortize`. `CLIENT_MM_WATERMARK` is a macro of
`client_mm.h`, which is not part of the sources at hand; it is a parameter here. -/
def ClientUniformMM.need_amortize (CLIENT_MM_WATERMARK : Nat) (mm : ClientUniformMM) :
    Bool :=
  decide (mm.free_block_list_.length < CLIENT_MM_WATERMARK)

/-- One call on the allocator. -/
inductive Op where
  | add_segment (r_addr rkey server : Nat)
  | alloc (size : Nat)
  | free (r_block : RemoteBlock)
  | free4 (r_addr rkey size server : Nat)
deriving DecidableEq, Repr

/-- The state after one call. -/
def step (mm : ClientUniformMM) : Op → Except Fault ClientUniformMM
  | .add_segment a k s => mm.add_segment a k s
  | .alloc size => .ok (mm.alloc size).mm
  | .free b => .ok (mm.free b).2
  | .free4 a k sz s => .ok (mm.free4 a k sz s).2

/-- The state after a sequence of calls, or the fault that ended it. -/
def run (mm : ClientUniformMM) : List Op → Except Fault ClientUniformMM
  | [] => .ok mm
  | op :: ops =>
    match step mm op with
    | .error e => .error e
    | .ok mm' => run mm' ops

/-- The return values of successive `alloc` calls with the given request sizes. -/
def allocs (mm : ClientUniformMM) : List Nat → List Int
  | [] => []
  | size :: sizes => (mm.alloc size).ret :: allocs (mm.alloc size).mm sizes

/-- The state after successive `alloc` calls with the given request sizes. -/
def after_allocs (mm : ClientUniformMM) : List Nat → ClientUniformMM
  | [] => mm
  | size :: sizes => after_allocs (mm.alloc size).mm sizes

/-- The configuration of the scenario of spec section 8. -/
def conf4096 : DMCConfig := { segment_size := 4096, block_size := 1024 }

/-- The allocator of the scenario of spec section 8 after its `add_segment` call:
one segment at address `0x10000`, key `7`, server `1`. -/
def mm4096 : ClientUniformMM :=
  { segment_size_ := 4096
    uni_block_size_ := 1024
    remote_segment_list_ := [{ addr := 65536, rkey := 7, server := 1 }]
    free_block_list_ :=
      [ { addr := 65536, rkey := 7, size := 1024, server := 1 },
        { addr := 66560, rkey := 7, size := 1024, server := 1 },
        { addr := 67584, rkey := 7, size := 1024, server := 1 },
        { addr := 68608, rkey := 7, size := 1024, server := 1 } ]
    used_block_map_ := [] }

/-- A caller that allocates a block and releases the very block it was handed (and
does nothing more when the allocation fails). -/
def alloc_then_free (size : Nat) (mm : ClientUniformMM) : ClientUniformMM :=
  match (mm.alloc size).r_block with
  | some r_block => ((mm.alloc size).mm.free r_block).2
  | none => (mm.alloc size).mm

/-! ## Eviction history tracker (`src/lw_history.h`) -/

/-- Modelled from the spec: `HIST_MASK` is a macro of `dmc_utils.h`, which is not part
of the sources at hand. Spec section 4.3 says that both heads are masked to 48 bits,
so the mask is `2 ^ 48 - 1`. -/
def HIST_MASK : Nat := 2 ^ 48 - 1

/-- The members of `LWHistory`. `hist_size_` and `occupy_size_` are `uint32_t`,
`hist_head_raddr_` is `uint64_t`. -/
structure LWHistory where
  hist_size_ : Nat
  hist_head_raddr_ : Nat
  occupy_size_ : Nat
deriving DecidableEq, Repr

/-- `LWHistory::LWHistory`. `occupy_size_` is `sizeof(uint64_t)`. The `memset` of the
counter in the server role writes to memory outside the object and is not part of
this state. -/
def LWHistory.new (hist_size hist_base_raddr _type : Nat) : LWHistory :=
  { hist_size_ := hist_size
    hist_head_raddr_ := hist_base_raddr
    occupy_size_ := 8 }

/-- `LWHistory::size`. -/
def LWHistory.size (h : LWHistory) : Nat := h.occupy_size_

/-- `LWHistory::hist_cntr_raddr`. -/
def LWHistory.hist_cntr_raddr (h : LWHistory) : Nat := h.hist_head_raddr_

/-- `LWHistory::has_overwritten`. The heads are 64-bit unsigned, so the sum and the
difference of the second branch are taken modulo `2 ^ 64`. -/
def LWHistory.has_overwritten (h : LWHistory) (cur_head stored_head : Nat) : Bool :=
  let cur_head := cur_head &&& HIST_MASK
  let stored_head := stored_head &&& HIST_MASK
  if cur_head ≥ stored_head then
    decide (cur_head - stored_head ≥ h.hist_size_)
  else
    decide (((cur_head + 2 ^ 48) % 2 ^ 64 + 2 ^ 64 - stored_head) % 2 ^ 64 ≥ h.hist_size_)

/-! ## Eviction priorities (`src/priority.h`)

A `double` is modelled by the rational number it stands for: rounding (of products,
sums, and of 64-bit integers converted to `double`) is outside the model, and a
floating division by zero is recorded as `notFinite`. -/

/-- Modelled from the spec: the `acc_info` member of `SlotMeta`, declared in
`dmc_table.h`, which is not part of the sources at hand. The fields are the ones read
in `priority.h` (spec section 3: access timestamp, insertion timestamp, access
frequency, counter). The timestamps and `freq` are unsigned integers (`freq` is an
operand of `%`, `ins_ts` is copied into a `uint64_t`); the type of `counter` is not
visible, a rational covers both an integer and a `double`. -/
structure AccInfo where
  acc_ts : Nat
  ins_ts : Nat
  freq : Nat
  counter : ℚ
deriving DecidableEq

/-- Modelled from the spec: `SlotMeta`, declared in `dmc_table.h`, which is not part
of the sources at hand; only the member read by the priorities is kept. -/
structure SlotMeta where
  acc_info : AccInfo
deriving DecidableEq

/-- What a call of `parse_priority` yields. -/
inductive PriorityResult where
  /-- The returned `double`. -/
  | value (q : ℚ)
  /-- The returned `double` is an infinity or a NaN (floating division by zero). -/
  | notFinite
  /-- The call has undefined behaviour (integer division by zero). -/
  | undefinedBehaviour
deriving DecidableEq

/-- The sources of values that are not arguments: `new_ts` is the value returned by
`new_ts()` (a 64-bit timestamp, declared in `dmc_utils.h`), `random` the value
returned by `random()`. -/
structure Env where
  new_ts : Nat
  random : Nat
deriving DecidableEq

/-- `DumbPriority::parse_priority`. -/
def DumbPriority.parse_priority (env : Env) (_meta : SlotMeta) (_size : Nat) : ℚ :=
  env.random

/-- `LRUPriority::parse_priority`. -/
def LRUPriority.parse_priority (meta : SlotMeta) (_size : Nat) : ℚ :=
  meta.acc_info.acc_ts

/-- `LFUPriority::parse_priority`. -/
def LFUPriority.parse_priority (meta : SlotMeta) (_size : Nat) : ℚ :=
  meta.acc_info.freq

/-- `GDSFPriority::parse_priority`. Both operands of `/` are integers (`size` is
`uint8_t`), so the quotient is the integer quotient, converted to `double` for the
sum. -/
def GDSFPriority.parse_priority (L_ : ℚ) (meta : SlotMeta) (size : Nat) : PriorityResult :=
  if size = 0 then .undefinedBehaviour
  else .value (L_ + ((meta.acc_info.freq / size : Nat) : ℚ))

/-- `GDSPriority::parse_priority`. `1 / size` is a quotient of two `int`s. -/
def GDSPriority.parse_priority (L_ : ℚ) (_meta : SlotMeta) (size : Nat) : PriorityResult :=
  if size = 0 then .undefinedBehaviour
  else .value (L_ + ((1 / size : Nat) : ℚ))

/-- `LIRSPriority::parse_priority`. -/
def LIRSPriority.parse_priority (meta : SlotMeta) (_size : Nat) : ℚ :=
  meta.acc_info.counter

/-- `LRFUPriority::parse_priority`. -/
def LRFUPriority.parse_priority (meta : SlotMeta) (_size : Nat) : ℚ :=
  meta.acc_info.counter

/-- `FIFOPriority::parse_priority`. -/
def FIFOPriority.parse_priority (meta : SlotMeta) (_size : Nat) : ℚ :=
  meta.acc_info.ins_ts

/-- `LFUDAPriority::parse_priority`. -/
def LFUDAPriority.parse_priority (L_ : ℚ) (meta : SlotMeta) (_size : Nat) : ℚ :=
  meta.acc_info.freq + L_

/-- The member `K_` of `LRUKPriority`, initialised to 2 and never assigned. -/
def LRUKPriority.K_ : Nat := 2

/-- `LRUKPriority::parse_priority`. -/
def LRUKPriority.parse_priority (meta : SlotMeta) (_size : Nat) : ℚ :=
  if meta.acc_info.freq < LRUKPriority.K_ then
    -1
  else if meta.acc_info.freq % LRUKPriority.K_ = 0 then
    meta.acc_info.acc_ts
  else
    meta.acc_info.counter

/-- `SIZEPriority::parse_priority`. -/
def SIZEPriority.parse_priority (meta : SlotMeta) (size : Nat) : ℚ :=
  (size : ℚ) * 100000000000 + meta.acc_info.acc_ts

/-- `MRUPriority::parse_priority`. -/
def MRUPriority.parse_priority (meta : SlotMeta) (_size : Nat) : ℚ :=
  -(meta.acc_info.acc_ts : ℚ)

/-- `HyperbolicPriority::parse_priority`. `cur_ts - ins_ts` is a difference of
`uint64_t` values, taken modulo `2 ^ 64`, then converted to `double`. -/
def HyperbolicPriority.parse_priority (env : Env) (meta : SlotMeta) (_size : Nat) :
    PriorityResult :=
  let cur_ts : Nat := env.new_ts % 2 ^ 64
  let ins_ts : Nat := meta.acc_info.ins_ts % 2 ^ 64
  let age : Nat := (cur_ts + 2 ^ 64 - ins_ts) % 2 ^ 64
  if age = 0 then .notFinite
  else .value ((meta.acc_info.freq : ℚ) / (age : ℚ))

/-- An object of a class derived from `Priority`: the constructor names the dynamic
type and carries the data member `L_` where the class has one. -/
inductive Priority where
  | Dumb
  | LRU
  | LFU
  | GDSF (L_ : ℚ)
  | GDS (L_ : ℚ)
  | LIRS
  | LRFU
  | FIFO
  | LFUDA (L_ : ℚ)
  | LRUK
  | SIZE
  | MRU
  | Hyperbolic
deriving DecidableEq

/-- The virtual call `p->parse_priority(meta, size)`. -/
def Priority.parse_priority (p : Priority) (env : Env) (meta : SlotMeta) (size : Nat) :
    PriorityResult :=
  match p with
  | .Dumb => .value (DumbPriority.parse_priority env meta size)
  | .LRU => .value (LRUPriority.parse_priority meta size)
  | .LFU => .value (LFUPriority.parse_priority meta size)
  | .GDSF L_ => GDSFPriority.parse_priority L_ meta size
  | .GDS L_ => GDSPriority.parse_priority L_ meta size
  | .LIRS => .value (LIRSPriority.parse_priority meta size)
  | .LRFU => .value (LRFUPriority.parse_priority meta size)
  | .FIFO => .value (FIFOPriority.parse_priority meta size)
  | .LFUDA L_ => .value (LFUDAPriority.parse_priority L_ meta size)
  | .LRUK => .value (LRUKPriority.parse_priority meta size)
  | .SIZE => .value (SIZEPriority.parse_priority meta size)
  | .MRU => .value (MRUPriority.parse_priority meta size)
  | .Hyperbolic => HyperbolicPriority.parse_priority env meta size

/-- The virtual call `p->evict_callback(evict_prio)`: `GDSFPriority`, `GDSPriority`
and `LFUDAPriority` assign `L_`, the other classes inherit the empty body. -/
def Priority.evict_callback (p : Priority) (evict_prio : ℚ) : Priority :=
  match p with
  | .GDSF _ => .GDSF evict_prio
  | .GDS _ => .GDS evict_prio
  | .LFUDA _ => .LFUDA evict_prio
  | q => q

/-- Modelled from the spec: the policy identifiers `EVICT_PRIO_*` are macros of
`dmc_utils.h`, which is not part of the sources at hand; they are the cases of the
`switch` in `dmc_new_priority`, with `other` for any value that is none of them. -/
inductive EvictionPolicyId where
  | LRU
  | LFU
  | GDSF
  | GDS
  | LIRS
  | LRFU
  | FIFO
  | LFUDA
  | LRUK
  | SIZE
  | MRU
  | HYPERBOLIC
  | NON
  | other (eviction_prio : Nat)
deriving DecidableEq

/-- `dmc_new_priority`; `none` is the `NULL` of the `default` case. `new T()`
value-initialises the object, so `L_` starts at zero. -/
def dmc_new_priority : EvictionPolicyId → Option Priority
  | .LRU => some .LRU
  | .LFU => some .LFU
  | .GDSF => some (.GDSF 0)
  | .GDS => some (.GDS 0)
  | .LIRS => some .LIRS
  | .LRFU => some .LRFU
  | .FIFO => some .FIFO
  | .LFUDA => some (.LFUDA 0)
  | .LRUK => some .LRUK
  | .SIZE => some .SIZE
  | .MRU => some .MRU
  | .HYPERBOLIC => some .Hyperbolic
  | .NON => some .Dumb
  | .other _ => none

/-! ## Basic facts about `alloc` and `free` -/

theorem alloc_oversize (mm : ClientUniformMM) (size : Nat)
    (h : size > mm.uni_block_size_) :
    mm.alloc size = { ret := -1, r_block := none, mm := mm } := by
  simp [ClientUniformMM.alloc, h]

theorem alloc_empty (mm : ClientUniformMM) (size : Nat)
    (h : mm.free_block_list_ = []) :
    mm.alloc size = { ret := -1, r_block := none, mm := mm } := by
  unfold ClientUniformMM.alloc
  split
  · rfl
  · simp [h]

theorem alloc_cons (mm : ClientUniformMM) (size : Nat) (block : RemoteBlock)
    (rest : List RemoteBlock) (hsize : size ≤ mm.uni_block_size_)
    (h : mm.free_block_list_ = block :: rest) :
    mm.alloc size =
      { ret := 0
        r_block := some block
        mm := { mm with
                free_block_list_ := rest
                used_block_map_ := mm.used_block_map_ ++ [block] } } := by
  unfold ClientUniformMM.alloc
  rw [if_neg (by omega)]
  simp [h]

/-- A failed `alloc` leaves the state as it was. -/
theorem alloc_failed_mm_eq (mm : ClientUniformMM) (size : Nat)
    (h : (mm.alloc size).ret = -1) : (mm.alloc size).mm = mm := by
  by_cases hsz : size > mm.uni_block_size_
  · rw [alloc_oversize mm size hsz]
  · cases hf : mm.free_block_list_ with
    | nil => rw [alloc_empty mm size hf]
    | cons b rest =>
      rw [alloc_cons mm size b rest (by omega) hf] at h
      cases h

theorem alloc_uni_block_size (mm : ClientUniformMM) (size : Nat) :
    (mm.alloc size).mm.uni_block_size_ = mm.uni_block_size_ := by
  unfold ClientUniformMM.alloc
  split
  · rfl
  · split <;> rfl

/-- The return values of a run of `alloc` calls whose sizes all fit a block: as
many zeros as the free pool has blocks, then `-1` for the rest. -/
theorem allocs_eq_replicate (sizes : List Nat) :
    ∀ mm : ClientUniformMM, (∀ s ∈ sizes, s ≤ mm.uni_block_size_) →
      allocs mm sizes =
        List.replicate (min mm.free_block_list_.length sizes.length) (0 : Int) ++
          List.replicate (sizes.length - mm.free_block_list_.length) (-1 : Int) := by
  induction sizes with
  | nil => intro mm _; simp [allocs]
  | cons s rest ih =>
    intro mm hs
    have hs0 : s ≤ mm.uni_block_size_ := hs s (List.mem_cons_self _ _)
    have hrest : ∀ t ∈ rest, t ≤ (mm.alloc s).mm.uni_block_size_ := by
      intro t ht
      rw [alloc_uni_block_size]
      exact hs t (List.mem_cons_of_mem _ ht)
    have ih' := ih (mm.alloc s).mm hrest
    cases hf : mm.free_block_list_ with
    | nil =>
      rw [alloc_empty mm s hf] at ih'
      simp only [allocs, alloc_empty mm s hf]
      rw [ih', hf]
      simp [List.replicate_succ]
    | cons b r =>
      rw [alloc_cons mm s b r hs0 hf] at ih'
      simp only [allocs, alloc_cons mm s b r hs0 hf]
      rw [ih']
      simp [List.replicate_succ, Nat.succ_min_succ]

theorem after_allocs_uni_block_size (sizes : List Nat) :
    ∀ mm : ClientUniformMM,
      (after_allocs mm sizes).uni_block_size_ = mm.uni_block_size_ := by
  induction sizes with
  | nil => intro mm; rfl
  | cons a l ih => intro mm; simp only [after_allocs]; rw [ih, alloc_uni_block_size]

/-- An `alloc` that fits a block succeeds right after any `free`. -/
theorem alloc_after_free_ret (mm : ClientUniformMM) (b : RemoteBlock) (s : Nat)
    (hs : s ≤ mm.uni_block_size_) : ((mm.free b).2.alloc s).ret = 0 := by
  have hs' : s ≤ (mm.free b).2.uni_block_size_ := hs
  cases hfl : mm.free_block_list_ with
  | nil =>
    rw [alloc_cons _ s { b with size := mm.uni_block_size_ } [] hs'
      (by simp [ClientUniformMM.free, hfl])]
  | cons x xs =>
    rw [alloc_cons _ s x (xs ++ [{ b with size := mm.uni_block_size_ }]) hs'
      (by simp [ClientUniformMM.free, hfl])]

/-- The result of `add_segment` when it returns: the address is not registered, the
block size is not zero and the block count stays in the range of the loop counter. -/
theorem add_segment_eq_ok (mm : ClientUniformMM) (r_addr rkey server : Nat)
    (hnew : ∀ s ∈ mm.remote_segment_list_, s.addr ≠ r_addr)
    (hblk : 0 < mm.uni_block_size_)
    (hcnt : mm.segment_size_ / mm.uni_block_size_ < 2 ^ 31) :
    mm.add_segment r_addr rkey server =
      .ok { mm with
            remote_segment_list_ := mm.remote_segment_list_ ++
              [{ addr := r_addr, rkey := rkey, server := server }]
            free_block_list_ := mm.free_block_list_ ++
              (List.range (mm.segment_size_ / mm.uni_block_size_)).map
                (mm.new_block r_addr rkey server) } := by
  have hmod : mm.segment_size_ / mm.uni_block_size_ % 2 ^ 32
      = mm.segment_size_ / mm.uni_block_size_ := Nat.mod_eq_of_lt (by omega)
  have hne : mm.uni_block_size_ ≠ 0 := by omega
  have hany : (mm.remote_segment_list_.any fun s => s.addr == r_addr) = false := by
    rw [List.any_eq_false]
    intro s hs
    simpa using hnew s hs
  simp only [ClientUniformMM.add_segment, ClientMM.add_segment, hany, Bool.false_eq_true,
    if_false, hne, hmod]
  rw [if_neg (by omega)]

/-- What a returning `add_segment` did to the state, without any assumption on the
sizes. -/
theorem add_segment_ok_inv (mm mm' : ClientUniformMM) (r_addr rkey server : Nat)
    (h : mm.add_segment r_addr rkey server = .ok mm') :
    mm' = { mm with
            remote_segment_list_ := mm.remote_segment_list_ ++
              [{ addr := r_addr, rkey := rkey, server := server }]
            free_block_list_ := mm.free_block_list_ ++
              (List.range ((mm.segment_size_ / mm.uni_block_size_) % 2 ^ 32)).map
                (mm.new_block r_addr rkey server) } := by
  unfold ClientUniformMM.add_segment ClientMM.add_segment at h
  split at h
  · cases h
  · rename_i segs hsegs
    split at hsegs
    · cases hsegs
    · cases hsegs
      split at h
      · cases h
      · simp only at h
        split at h
        · cases h
        · cases h
          rfl

theorem alloc_free_block_list_subset (mm : ClientUniformMM) (size : Nat) :
    ∀ b ∈ (mm.alloc size).mm.free_block_list_, b ∈ mm.free_block_list_ := by
  intro b hb
  unfold ClientUniformMM.alloc at hb
  split at hb
  · exact hb
  · split at hb
    · exact hb
    · rename_i blk rest hf
      rw [hf]
      exact List.mem_cons_of_mem _ hb

/-- Along any run the block size is constant and every block of the free pool
carries it in its `size` field, provided this holds at the start. -/
theorem run_free_block_sizes (B : Nat) (ops : List Op) :
    ∀ mm : ClientUniformMM, mm.uni_block_size_ = B →
      (∀ b ∈ mm.free_block_list_, b.size = B) →
      ∀ mm', run mm ops = .ok mm' →
        mm'.uni_block_size_ = B ∧ ∀ b ∈ mm'.free_block_list_, b.size = B := by
  induction ops with
  | nil =>
    intro mm hu hf mm' h
    simp only [run, Except.ok.injEq] at h
    subst h
    exact ⟨hu, hf⟩
  | cons op ops ih =>
    intro mm hu hf mm' h
    simp only [run] at h
    split at h
    · cases h
    · rename_i m1 hstep
      refine ih m1 ?_ ?_ mm' h
      · cases op with
        | add_segment a k s =>
          simp only [step] at hstep
          rw [add_segment_ok_inv mm m1 a k s hstep]
          exact hu
        | alloc size =>
          simp only [step, Except.ok.injEq] at hstep
          rw [← hstep, alloc_uni_block_size]
          exact hu
        | free b =>
          simp only [step, Except.ok.injEq] at hstep
          rw [← hstep]
          exact hu
        | free4 a k sz s =>
          simp only [step, Except.ok.injEq] at hstep
          rw [← hstep]
          exact hu
      · cases op with
        | add_segment a k s =>
          simp only [step] at hstep
          rw [add_segment_ok_inv mm m1 a k s hstep]
          intro b hb
          simp only [List.mem_append, List.mem_map, List.mem_range] at hb
          rcases hb with hb | ⟨i, _, rfl⟩
          · exact hf b hb
          · exact hu
        | alloc size =>
          simp only [step, Except.ok.injEq] at hstep
          rw [← hstep]
          intro b hb
          exact hf b (alloc_free_block_list_subset mm size b hb)
        | free r =>
          simp only [step, Except.ok.injEq] at hstep
          rw [← hstep]
          intro b hb
          simp only [ClientUniformMM.free, List.mem_append, List.mem_singleton] at hb
          rcases hb with hb | rfl
          · exact hf b hb
          · exact hu
        | free4 a k sz s =>
          simp only [step, Except.ok.injEq] at hstep
          rw [← hstep]
          intro b hb
          simp only [ClientUniformMM.free4, List.mem_append, List.mem_singleton] at hb
          rcases hb with hb | rfl
          · exact hf b hb
          · exact hu

/-! ## C1 -/

/-- C1 (evaluation at the failing input). With one segment of four blocks, one
successful `alloc` followed by `free` of the very block it returned is a balanced
sequence, yet `check_integrity()` returns false afterwards: `free` gives the block
back to the free pool but leaves it in `used_block_map_`, so the sum is 1 + 4 and
the total is 4. (Last conjunct: with segment size 3 and block size 2, two segments
hold 1 + 1 blocks while the total is computed as 2 * 3 / 2 = 3, so the check already
fails before any `alloc`.) -/
theorem check_integrity_false_after_alloc_free :
    ((ClientUniformMM.new conf4096).add_segment 65536 7 1 = .ok mm4096 ∧
    mm4096.check_integrity = .ok true ∧
    (mm4096.alloc 1024).ret = 0 ∧
    (mm4096.alloc 1024).r_block = some ⟨65536, 7, 1024, 1⟩ ∧
    ((mm4096.alloc 1024).mm.free ⟨65536, 7, 1024, 1⟩).2.used_block_map_.length = 1 ∧
    ((mm4096.alloc 1024).mm.free ⟨65536, 7, 1024, 1⟩).2.free_block_list_.length = 4 ∧
    ((mm4096.alloc 1024).mm.free ⟨65536, 7, 1024, 1⟩).2.check_integrity = .ok false) ∧
    (run (ClientUniformMM.new { segment_size := 3, block_size := 2 })
        [.add_segment 0 7 1, .add_segment 16 7 1] =
      .ok { segment_size_ := 3
            uni_block_size_ := 2
            remote_segment_list_ := [⟨0, 7, 1⟩, ⟨16, 7, 1⟩]
            free_block_list_ := [⟨0, 7, 2, 1⟩, ⟨16, 7, 2, 1⟩]
            used_block_map_ := [] } ∧
      ClientUniformMM.check_integrity
        { segment_size_ := 3
          uni_block_size_ := 2
          remote_segment_list_ := [⟨0, 7, 1⟩, ⟨16, 7, 1⟩]
          free_block_list_ := [⟨0, 7, 2, 1⟩, ⟨16, 7, 2, 1⟩]
          used_block_map_ := [] } = .ok false) := by
  decide

/-! ## C2 -/

/-- C2. Scenario: with `segment_size = 4096` and `block_size = 1024`, one
`add_segment` on a fresh allocator leaves 4 blocks in the free pool; 4 successive
`alloc` calls succeed and the 5th fails; after freeing one of the allocated blocks
the next `alloc` succeeds. In general, for a fresh allocator with a non-zero block
size and fewer than `2 ^ 31` blocks per segment, one `add_segment` succeeds and, of
any run of `alloc` calls with sizes at most `block_size`, exactly the first
`segment_size / block_size` return 0 and all later ones return -1; a `free` of any
block after such a run makes the next such `alloc` succeed. -/
theorem alloc_succeeds_exactly_num_blocks_times :
    ((ClientUniformMM.new conf4096).add_segment 65536 7 1 = .ok mm4096 ∧
      mm4096.free_block_list_.length = 4 ∧
      allocs mm4096 [1024, 1024, 1024, 1024, 1024] = [0, 0, 0, 0, -1] ∧
      (((after_allocs mm4096 [1024, 1024, 1024, 1024, 1024]).free
          ⟨66560, 7, 1024, 1⟩).2.alloc 1024).ret = 0) ∧
    ∀ (conf : DMCConfig) (r_addr rkey server : Nat),
      0 < conf.block_size →
      conf.segment_size / conf.block_size < 2 ^ 31 →
      ∃ mm1, (ClientUniformMM.new conf).add_segment r_addr rkey server = .ok mm1 ∧
        mm1.free_block_list_.length = conf.segment_size / conf.block_size ∧
        ∀ sizes : List Nat, (∀ s ∈ sizes, s ≤ conf.block_size) →
          allocs mm1 sizes =
            List.replicate (min (conf.segment_size / conf.block_size) sizes.length) (0 : Int)
              ++ List.replicate (sizes.length - conf.segment_size / conf.block_size) (-1 : Int)
          ∧ ∀ (b : RemoteBlock) (s : Nat), s ≤ conf.block_size →
              (((after_allocs mm1 sizes).free b).2.alloc s).ret = 0 := by
  refine ⟨by decide, ?_⟩
  intro conf r_addr rkey server hblk hcnt
  refine ⟨_, add_segment_eq_ok (ClientUniformMM.new conf) r_addr rkey server
    (by simp [ClientUniformMM.new]) hblk hcnt, ?_, ?_⟩
  · simp [ClientUniformMM.new]
  · intro sizes hs
    constructor
    · have h := allocs_eq_replicate sizes
        { ClientUniformMM.new conf with
          remote_segment_list_ := (ClientUniformMM.new conf).remote_segment_list_ ++
            [{ addr := r_addr, rkey := rkey, server := server }]
          free_block_list_ := (ClientUniformMM.new conf).free_block_list_ ++
            (List.range ((ClientUniformMM.new conf).segment_size_ /
              (ClientUniformMM.new conf).uni_block_size_)).map
              ((ClientUniformMM.new conf).new_block r_addr rkey server) } hs
      simpa [ClientUniformMM.new] using h
    · intro b s hsz
      apply alloc_after_free_ret
      rw [after_allocs_uni_block_size]
      exact hsz

/-- C2 (witness). The general statement at the scenario configuration and the
request sizes 1, 2, 3, 4, 5. -/
theorem alloc_succeeds_exactly_num_blocks_times_witness :
    0 < conf4096.block_size ∧ conf4096.segment_size / conf4096.block_size < 2 ^ 31 ∧
    ∃ mm1, (ClientUniformMM.new conf4096).add_segment 65536 7 1 = .ok mm1 ∧
      mm1.free_block_list_.length = 4 ∧
      allocs mm1 [1, 2, 3, 4, 5] = [0, 0, 0, 0, -1] ∧
      (((after_allocs mm1 [1, 2, 3, 4, 5]).free ⟨0, 0, 0, 0⟩).2.alloc 6).ret = 0 :=
  ⟨by decide, by decide,
    match alloc_succeeds_exactly_num_blocks_times.2 conf4096 65536 7 1
      (by decide) (by decide) with
    | ⟨mm1, h1, h2, h3⟩ =>
      ⟨mm1, h1, h2, (h3 [1, 2, 3, 4, 5] (by decide)).1,
        (h3 [1, 2, 3, 4, 5] (by decide)).2 ⟨0, 0, 0, 0⟩ 6 (by decide)⟩⟩

/-! ## C3 -/

/-- C3. For every allocator state and every requested size, `alloc` returns either
0 or -1; it fails (returns -1) if and only if the requested size exceeds the block
size or the free pool is empty; and whenever it fails the whole allocator state, in
particular the free pool and the used-block record, is what it was before the call
and the out-block is not written. -/
theorem alloc_fails_iff (mm : ClientUniformMM) (size : Nat) :
    ((mm.alloc size).ret = 0 ∨ (mm.alloc size).ret = -1) ∧
    ((mm.alloc size).ret = -1 ↔
      (size > mm.uni_block_size_ ∨ mm.free_block_list_ = [])) ∧
    ((mm.alloc size).ret = -1 →
      (mm.alloc size).mm = mm ∧
      (mm.alloc size).mm.free_block_list_ = mm.free_block_list_ ∧
      (mm.alloc size).mm.used_block_map_ = mm.used_block_map_ ∧
      (mm.alloc size).r_block = none) := by
  by_cases hsz : size > mm.uni_block_size_
  · simp [alloc_oversize mm size hsz, hsz]
  · cases hf : mm.free_block_list_ with
    | nil => rw [alloc_empty mm size hf]; simp [hf]
    | cons b rest => simp [alloc_cons mm size b rest (by omega) hf, hsz]

/-- C3 (witness). An oversize request on the scenario allocator. -/
theorem alloc_fails_iff_witness :
    (mm4096.alloc 1025).ret = -1 ∧
    (mm4096.alloc 1025).mm = mm4096 ∧
    (mm4096.alloc 1025).mm.free_block_list_ = mm4096.free_block_list_ ∧
    (mm4096.alloc 1025).mm.used_block_map_ = mm4096.used_block_map_ ∧
    (mm4096.alloc 1025).r_block = none :=
  ⟨by decide, (alloc_fails_iff mm4096 1025).2.2 (by decide)⟩

/-! ## C4 -/

/-- C4 (counterexample). On a fresh allocator with block size 1024 and an empty
free pool, a request of 2000 bytes fails because it is oversize and a request of 10
bytes fails because the pool is empty, and the two calls hand the caller the same
result: return value -1 and an unwritten out-block. -/
theorem alloc_failure_results_coincide :
    ¬ (∀ (mm : ClientUniformMM) (big small : Nat),
        big > mm.uni_block_size_ → small ≤ mm.uni_block_size_ →
        mm.free_block_list_ = [] →
        ((mm.alloc big).ret, (mm.alloc big).r_block) ≠
          ((mm.alloc small).ret, (mm.alloc small).r_block)) := by
  intro h
  exact h (ClientUniformMM.new conf4096) 2000 10 (by decide) (by decide) (by decide)
    (by decide)

/-- C4 (amended). A failed `alloc` returns -1 and leaves the out-block unwritten and
the state unchanged, both when the requested size exceeds the block size and when
the free pool is empty: the two failures hand the caller the same result, whatever
the states and sizes of the two calls. -/
theorem alloc_failure_result_uniform (mm₁ mm₂ : ClientUniformMM) (big small : Nat)
    (hbig : big > mm₁.uni_block_size_) (hempty : mm₂.free_block_list_ = []) :
    mm₁.alloc big = { ret := -1, r_block := none, mm := mm₁ } ∧
    mm₂.alloc small = { ret := -1, r_block := none, mm := mm₂ } ∧
    ((mm₁.alloc big).ret, (mm₁.alloc big).r_block) =
      ((mm₂.alloc small).ret, (mm₂.alloc small).r_block) := by
  refine ⟨alloc_oversize mm₁ big hbig, alloc_empty mm₂ small hempty, ?_⟩
  rw [alloc_oversize mm₁ big hbig, alloc_empty mm₂ small hempty]

/-- C4 (witness). The amended statement for an oversize request on the scenario
allocator with four free blocks and a fitting request on the fresh, empty one. -/
theorem alloc_failure_result_uniform_witness :
    (2000 > mm4096.uni_block_size_ ∧
      (ClientUniformMM.new conf4096).free_block_list_ = []) ∧
    ((mm4096.alloc 2000).ret, (mm4096.alloc 2000).r_block) =
      (((ClientUniformMM.new conf4096).alloc 10).ret,
        ((ClientUniformMM.new conf4096).alloc 10).r_block) :=
  ⟨by decide,
    (alloc_failure_result_uniform mm4096 (ClientUniformMM.new conf4096) 2000 10
      (by decide) (by decide)).2.2⟩

/-! ## C5 -/

/-- C5. `alloc` serves the free pool first in, first out. Blocks enter the pool only
at the back (`free`, the four-argument `free` and `add_segment` append to it and keep
the blocks already there in place), and a successful `alloc` returns a copy of the
block at the front, removes exactly that block keeping the order of the others, and
appends it to the used record. Consequently two blocks freed in the order `b₁`, `b₂`
into an empty pool are returned, with their size field reset to the block size, by
the next two fitting `alloc` calls in the order `b₁`, `b₂`. -/
theorem alloc_serves_fifo (mm : ClientUniformMM) :
    (∀ (size : Nat) (block : RemoteBlock) (rest : List RemoteBlock),
      size ≤ mm.uni_block_size_ → mm.free_block_list_ = block :: rest →
      mm.alloc size =
        { ret := 0
          r_block := some block
          mm := { mm with
                  free_block_list_ := rest
                  used_block_map_ := mm.used_block_map_ ++ [block] } }) ∧
    (∀ b : RemoteBlock, (mm.free b).2.free_block_list_ =
      mm.free_block_list_ ++ [{ b with size := mm.uni_block_size_ }]) ∧
    (∀ a k sz s : Nat, (mm.free4 a k sz s).2.free_block_list_ =
      mm.free_block_list_ ++ [⟨a, k, mm.uni_block_size_, s⟩]) ∧
    (∀ (a k s : Nat) (mm' : ClientUniformMM), mm.add_segment a k s = .ok mm' →
      ∃ blocks, mm'.free_block_list_ = mm.free_block_list_ ++ blocks) ∧
    (∀ (b₁ b₂ : RemoteBlock) (s₁ s₂ : Nat),
      mm.free_block_list_ = [] → s₁ ≤ mm.uni_block_size_ → s₂ ≤ mm.uni_block_size_ →
      (((mm.free b₁).2.free b₂).2.alloc s₁).r_block =
          some { b₁ with size := mm.uni_block_size_ } ∧
        ((((mm.free b₁).2.free b₂).2.alloc s₁).mm.alloc s₂).r_block =
          some { b₂ with size := mm.uni_block_size_ }) := by
  refine ⟨?_, ?_, ?_, ?_, ?_⟩
  · intro size block rest hsize h
    exact alloc_cons mm size block rest hsize h
  · intro b
    rfl
  · intro a k sz s
    rfl
  · intro a k s mm' h
    rw [add_segment_ok_inv mm mm' a k s h]
    exact ⟨_, rfl⟩
  · intro b₁ b₂ s₁ s₂ hempty h₁ h₂
    have e₁ := alloc_cons ((mm.free b₁).2.free b₂).2 s₁
      { b₁ with size := mm.uni_block_size_ } [{ b₂ with size := mm.uni_block_size_ }]
      h₁ (by simp [ClientUniformMM.free, hempty])
    refine ⟨by rw [e₁], ?_⟩
    exact congrArg AllocResult.r_block
      (alloc_cons (((mm.free b₁).2.free b₂).2.alloc s₁).mm s₂
        { b₂ with size := mm.uni_block_size_ } []
        (by rw [alloc_uni_block_size]; exact h₂) (by rw [e₁]))

/-- C5 (witness). On the scenario allocator the block at the front of the pool is
the one served, and after draining the pool two freed blocks come back in the order
of their release. -/
theorem alloc_serves_fifo_witness :
    (mm4096.alloc 100).r_block = some ⟨65536, 7, 1024, 1⟩ ∧
    (mm4096.alloc 100).mm.free_block_list_ =
      [⟨66560, 7, 1024, 1⟩, ⟨67584, 7, 1024, 1⟩, ⟨68608, 7, 1024, 1⟩] ∧
    (mm4096.alloc 100).mm.used_block_map_ = [⟨65536, 7, 1024, 1⟩] ∧
    ((((ClientUniformMM.new conf4096).free ⟨67584, 7, 9, 1⟩).2.free
        ⟨65536, 7, 1024, 1⟩).2.alloc 5).r_block = some ⟨67584, 7, 1024, 1⟩ :=
  ⟨congrArg AllocResult.r_block
      ((alloc_serves_fifo mm4096).1 100 ⟨65536, 7, 1024, 1⟩
        [⟨66560, 7, 1024, 1⟩, ⟨67584, 7, 1024, 1⟩, ⟨68608, 7, 1024, 1⟩]
        (by decide) rfl),
    by decide, by decide,
    ((alloc_serves_fifo (ClientUniformMM.new conf4096)).2.2.2.2
      ⟨67584, 7, 9, 1⟩ ⟨65536, 7, 1024, 1⟩ 5 5 rfl (by decide) (by decide)).1⟩

/-! ## C6 -/

/-- C6. In every state reached from a fresh allocator by any sequence of
`add_segment`, `alloc` and `free` calls (either overload, with arbitrary blocks and
size arguments), the block size is the configured one, every block in the free pool
has its `size` field equal to it, and every block handed out by a successful `alloc`
has size exactly the block size. -/
theorem reachable_free_blocks_have_block_size (conf : DMCConfig) (ops : List Op)
    (mm : ClientUniformMM) (h : run (ClientUniformMM.new conf) ops = .ok mm) :
    mm.uni_block_size_ = conf.block_size ∧
    (∀ b ∈ mm.free_block_list_, b.size = conf.block_size) ∧
    (∀ size : Nat, (mm.alloc size).ret = 0 →
      ∃ b, (mm.alloc size).r_block = some b ∧ b.size = conf.block_size ∧
        b.size ≤ conf.block_size) := by
  obtain ⟨hu, hf⟩ := run_free_block_sizes conf.block_size ops (ClientUniformMM.new conf)
    rfl (by simp [ClientUniformMM.new]) mm h
  refine ⟨hu, hf, ?_⟩
  intro size hret
  by_cases hsz : size > mm.uni_block_size_
  · rw [alloc_oversize mm size hsz] at hret
    cases hret
  · cases hfl : mm.free_block_list_ with
    | nil =>
      rw [alloc_empty mm size hfl] at hret
      cases hret
    | cons b rest =>
      rw [alloc_cons mm size b rest (by omega) hfl]
      have hb : b.size = conf.block_size := hf b (by rw [hfl]; exact List.mem_cons_self _ _)
      exact ⟨b, rfl, hb, le_of_eq hb⟩

/-- C6 (witness). A run that frees a foreign block of size 9 and a raw address with
size argument 70000 into the scenario allocator. -/
theorem reachable_free_blocks_have_block_size_witness :
    run (ClientUniformMM.new conf4096)
        [.free ⟨1, 2, 9, 3⟩, .add_segment 65536 7 1, .alloc 8, .free4 5 6 70000 7] =
      .ok { mm4096 with
            free_block_list_ := mm4096.free_block_list_ ++ [⟨5, 6, 1024, 7⟩]
            used_block_map_ := [⟨1, 2, 1024, 3⟩] } ∧
    ∀ b ∈ mm4096.free_block_list_ ++ [⟨5, 6, 1024, 7⟩], b.size = 1024 :=
  ⟨by decide,
    (reachable_free_blocks_have_block_size conf4096
      [.free ⟨1, 2, 9, 3⟩, .add_segment 65536 7 1, .alloc 8, .free4 5 6 70000 7]
      { mm4096 with
        free_block_list_ := mm4096.free_block_list_ ++ [⟨5, 6, 1024, 7⟩]
        used_block_map_ := [⟨1, 2, 1024, 3⟩] } (by decide)).2.1⟩

/-! ## C7 -/

/-- C7. `free` always normalises the size and the two overloads agree: for every
state, block `b` and size argument `s`, `free(b)` and
`free(b.addr, b.rkey, s, b.server)` both return 0 and produce the same state, which
differs from the old one only in the free pool, where one block with the `addr`,
`rkey` and `server` of `b` and `size` equal to the block size has been appended at
the back, whatever `b.size` and `s` are. -/
theorem free_overloads_agree (mm : ClientUniformMM) (b : RemoteBlock) (s : Nat) :
    mm.free b = mm.free4 b.addr b.rkey s b.server ∧
    (mm.free b).1 = 0 ∧
    (mm.free4 b.addr b.rkey s b.server).1 = 0 ∧
    (mm.free b).2 =
      { mm with
        free_block_list_ := mm.free_block_list_ ++
          [{ addr := b.addr, rkey := b.rkey, size := mm.uni_block_size_,
             server := b.server }] } :=
  ⟨rfl, rfl, rfl, rfl⟩

/-! ## C8 -/

/-- C8 (evaluation at the failing input). On the scenario allocator `get_free_size()`
is 4096 with no block in use and 3072 after one `alloc`; after `free` of the block
that `alloc` returned all four blocks are back in the free pool and none is in use,
yet `get_free_size()` still returns 3072 instead of 4096 - 0 * 1024. In general no
`free` call, of either overload, changes `used_block_map_` or the value of
`get_free_size()`. -/
theorem get_free_size_unchanged_by_free :
    (mm4096.get_free_size = 4096 ∧
      (mm4096.alloc 1024).ret = 0 ∧
      (mm4096.alloc 1024).r_block = some ⟨65536, 7, 1024, 1⟩ ∧
      (mm4096.alloc 1024).mm.get_free_size = 3072 ∧
      ((mm4096.alloc 1024).mm.free ⟨65536, 7, 1024, 1⟩).2.free_block_list_ =
        [⟨66560, 7, 1024, 1⟩, ⟨67584, 7, 1024, 1⟩, ⟨68608, 7, 1024, 1⟩,
          ⟨65536, 7, 1024, 1⟩] ∧
      ((mm4096.alloc 1024).mm.free ⟨65536, 7, 1024, 1⟩).2.get_free_size = 3072) ∧
    (∀ (mm : ClientUniformMM) (b : RemoteBlock),
      (mm.free b).2.used_block_map_ = mm.used_block_map_ ∧
      (mm.free b).2.get_free_size = mm.get_free_size) ∧
    (∀ (mm : ClientUniformMM) (a k sz s : Nat),
      (mm.free4 a k sz s).2.used_block_map_ = mm.used_block_map_ ∧
      (mm.free4 a k sz s).2.get_free_size = mm.get_free_size) := by
  refine ⟨by decide, ?_, ?_⟩
  · intro mm b
    exact ⟨rfl, rfl⟩
  · intro mm a k sz s
    exact ⟨rfl, rfl⟩

/-! ## C9 -/

/-- C9. For every allocator state with a non-zero block size, a segment size below
`2 ^ 32` and fewer than `2 ^ 31` blocks per segment, and every address that is not
yet registered and whose segment ends within the 64-bit address space, `add_segment`
returns, records the segment at the back of the segment list and appends exactly
`segment_size / block_size` blocks to the back of the free pool, in strictly
ascending address order, the `i`-th (0-based) having `addr = address + i * block_size`,
`size = block_size` and the given `rkey` and `server`; the blocks already in the free
pool, the used record and the two sizes are unchanged. -/
theorem add_segment_appends_blocks (mm : ClientUniformMM) (r_addr rkey server : Nat)
    (hnew : ∀ s ∈ mm.remote_segment_list_, s.addr ≠ r_addr)
    (hblk : 0 < mm.uni_block_size_)
    (hseg : mm.segment_size_ < 2 ^ 32)
    (hcnt : mm.segment_size_ / mm.uni_block_size_ < 2 ^ 31)
    (haddr : r_addr + mm.segment_size_ ≤ 2 ^ 64) :
    mm.add_segment r_addr rkey server =
      .ok { mm with
            remote_segment_list_ := mm.remote_segment_list_ ++
              [{ addr := r_addr, rkey := rkey, server := server }]
            free_block_list_ := mm.free_block_list_ ++
              (List.range (mm.segment_size_ / mm.uni_block_size_)).map
                (fun i => { addr := r_addr + i * mm.uni_block_size_
                            rkey := rkey
                            size := mm.uni_block_size_
                            server := server }) } ∧
    ((List.range (mm.segment_size_ / mm.uni_block_size_)).map
      (fun i => r_addr + i * mm.uni_block_size_)).Pairwise (· < ·) := by
  constructor
  · rw [add_segment_eq_ok mm r_addr rkey server hnew hblk hcnt]
    have hmap : (List.range (mm.segment_size_ / mm.uni_block_size_)).map
          (mm.new_block r_addr rkey server) =
        (List.range (mm.segment_size_ / mm.uni_block_size_)).map
          (fun i => ({ addr := r_addr + i * mm.uni_block_size_
                       rkey := rkey
                       size := mm.uni_block_size_
                       server := server } : RemoteBlock)) := by
      apply List.map_congr_left
      intro i hi
      rw [List.mem_range] at hi
      have h1 : (i + 1) * mm.uni_block_size_ ≤ mm.segment_size_ :=
        le_trans (Nat.mul_le_mul_right _ hi) (Nat.div_mul_le_self _ _)
      have h2 : i * mm.uni_block_size_ + mm.uni_block_size_ ≤ mm.segment_size_ := by
        rw [Nat.add_mul, Nat.one_mul] at h1
        exact h1
      have h3 : i * mm.uni_block_size_ % 2 ^ 32 = i * mm.uni_block_size_ :=
        Nat.mod_eq_of_lt (by omega)
      have h4 : (r_addr + i * mm.uni_block_size_) % 2 ^ 64
          = r_addr + i * mm.uni_block_size_ := Nat.mod_eq_of_lt (by omega)
      simp only [ClientUniformMM.new_block, h3, h4]
    rw [hmap]
  · rw [List.pairwise_map]
    refine List.Pairwise.imp ?_ (List.pairwise_lt_range _)
    intro a b hab
    have : a * mm.uni_block_size_ < b * mm.uni_block_size_ :=
      Nat.mul_lt_mul_of_pos_right hab hblk
    omega

/-- C9 (witness). A second segment at `0x20000` added to the scenario allocator. -/
theorem add_segment_appends_blocks_witness :
    ((∀ s ∈ mm4096.remote_segment_list_, s.addr ≠ 131072) ∧
      0 < mm4096.uni_block_size_ ∧ mm4096.segment_size_ < 2 ^ 32 ∧
      mm4096.segment_size_ / mm4096.uni_block_size_ < 2 ^ 31 ∧
      131072 + mm4096.segment_size_ ≤ 2 ^ 64) ∧
    mm4096.add_segment 131072 9 2 =
      .ok { mm4096 with
            remote_segment_list_ := mm4096.remote_segment_list_ ++
              [{ addr := 131072, rkey := 9, server := 2 }]
            free_block_list_ := mm4096.free_block_list_ ++
              (List.range (mm4096.segment_size_ / mm4096.uni_block_size_)).map
                (fun i => { addr := 131072 + i * mm4096.uni_block_size_
                            rkey := 9
                            size := mm4096.uni_block_size_
                            server := 2 }) } :=
  ⟨by decide,
    (add_segment_appends_blocks mm4096 131072 9 2 (by decide) (by decide) (by decide)
      (by decide) (by decide)).1⟩

/-! ## C10 -/

/-- C10. `need_amortize()` is true exactly when the number of blocks in the free pool
is strictly below the watermark. A successful `alloc` takes one block from the pool
and changes the value of `need_amortize()` if and only if the pool held exactly
`watermark` blocks before, in which case it turns from false to true; a failed
`alloc` does not change it; a `free` (either overload) adds one block and changes the
value if and only if the pool then holds exactly `watermark` blocks, in which case it
turns from true to false. -/
theorem need_amortize_iff_below_watermark (watermark : Nat) (mm : ClientUniformMM) :
    (mm.need_amortize watermark = true ↔ mm.free_block_list_.length < watermark) ∧
    (∀ size : Nat, (mm.alloc size).ret = 0 →
      (mm.alloc size).mm.free_block_list_.length + 1 = mm.free_block_list_.length ∧
      ((mm.alloc size).mm.need_amortize watermark ≠ mm.need_amortize watermark ↔
        mm.free_block_list_.length = watermark) ∧
      (mm.free_block_list_.length = watermark →
        mm.need_amortize watermark = false ∧
        (mm.alloc size).mm.need_amortize watermark = true)) ∧
    (∀ size : Nat, (mm.alloc size).ret = -1 →
      (mm.alloc size).mm.need_amortize watermark = mm.need_amortize watermark) ∧
    (∀ b : RemoteBlock,
      (mm.free b).2.free_block_list_.length = mm.free_block_list_.length + 1 ∧
      ((mm.free b).2.need_amortize watermark ≠ mm.need_amortize watermark ↔
        (mm.free b).2.free_block_list_.length = watermark) ∧
      ((mm.free b).2.free_block_list_.length = watermark →
        mm.need_amortize watermark = true ∧
        (mm.free b).2.need_amortize watermark = false)) ∧
    (∀ a k sz s : Nat,
      (mm.free4 a k sz s).2.free_block_list_.length = mm.free_block_list_.length + 1 ∧
      ((mm.free4 a k sz s).2.need_amortize watermark ≠ mm.need_amortize watermark ↔
        (mm.free4 a k sz s).2.free_block_list_.length = watermark) ∧
      ((mm.free4 a k sz s).2.free_block_list_.length = watermark →
        mm.need_amortize watermark = true ∧
        (mm.free4 a k sz s).2.need_amortize watermark = false)) := by
  refine ⟨by simp [ClientUniformMM.need_amortize], ?_, ?_, ?_, ?_⟩
  · intro size hret
    by_cases hsz : size > mm.uni_block_size_
    · rw [alloc_oversize mm size hsz] at hret
      cases hret
    · cases hfl : mm.free_block_list_ with
      | nil =>
        rw [alloc_empty mm size hfl] at hret
        cases hret
      | cons b rest =>
        rw [alloc_cons mm size b rest (by omega) hfl]
        simp only [ClientUniformMM.need_amortize, hfl, List.length_cons]
        refine ⟨trivial, ?_, ?_⟩
        · by_cases h1 : rest.length < watermark <;> by_cases h2 : rest.length + 1 < watermark
            <;> simp [h1, h2] <;> omega
        · intro h
          simp only [decide_eq_false_iff_not, decide_eq_true_eq]
          omega
  · intro size hret
    have := (alloc_failed_mm_eq mm size hret)
    rw [this]
  · intro b
    simp only [ClientUniformMM.free, ClientUniformMM.need_amortize, List.length_append,
      List.length_singleton]
    refine ⟨trivial, ?_, ?_⟩
    · by_cases h1 : mm.free_block_list_.length < watermark <;>
        by_cases h2 : mm.free_block_list_.length + 1 < watermark <;> simp [h1, h2] <;> omega
    · intro h
      simp only [decide_eq_false_iff_not, decide_eq_true_eq]
      omega
  · intro a k sz s
    simp only [ClientUniformMM.free4, ClientUniformMM.need_amortize, List.length_append,
      List.length_singleton]
    refine ⟨trivial, ?_, ?_⟩
    · by_cases h1 : mm.free_block_list_.length < watermark <;>
        by_cases h2 : mm.free_block_list_.length + 1 < watermark <;> simp [h1, h2] <;> omega
    · intro h
      simp only [decide_eq_false_iff_not, decide_eq_true_eq]
      omega

/-- C10 (witness). With watermark 4 the scenario allocator, holding 4 free blocks,
does not ask for amortisation; the `alloc` that takes the pool to 3 blocks turns the
signal on and the `free` that brings it back to 4 turns it off again. -/
theorem need_amortize_iff_below_watermark_witness :
    ((mm4096.alloc 1).ret = 0 ∧ mm4096.free_block_list_.length = 4 ∧
      ((mm4096.alloc 1).mm.free ⟨65536, 7, 1024, 1⟩).2.free_block_list_.length = 4) ∧
    (mm4096.need_amortize 4 = false ∧ (mm4096.alloc 1).mm.need_amortize 4 = true) ∧
    ((mm4096.alloc 1).mm.need_amortize 4 = true ∧
      ((mm4096.alloc 1).mm.free ⟨65536, 7, 1024, 1⟩).2.need_amortize 4 = false) :=
  ⟨by decide,
    ((need_amortize_iff_below_watermark 4 mm4096).2.1 1 (by decide)).2.2 (by decide),
    ((need_amortize_iff_below_watermark 4 (mm4096.alloc 1).mm).2.2.2.1
      ⟨65536, 7, 1024, 1⟩).2.2 (by decide)⟩

/-! ## Facts about `has_overwritten` -/

/-- The two branches of `has_overwritten` compute the forward distance between the
heads modulo `2 ^ 48`. -/
theorem has_overwritten_eq_decide (h : LWHistory) (c s : Nat) :
    h.has_overwritten c s =
      decide ((c % 2 ^ 48 + 2 ^ 48 - s % 2 ^ 48) % 2 ^ 48 ≥ h.hist_size_) := by
  unfold LWHistory.has_overwritten HIST_MASK
  simp only [Nat.and_pow_two_sub_one_eq_mod]
  have hc : c % 2 ^ 48 < 2 ^ 48 := Nat.mod_lt _ (by norm_num)
  have hs : s % 2 ^ 48 < 2 ^ 48 := Nat.mod_lt _ (by norm_num)
  generalize c % 2 ^ 48 = a at *
  generalize s % 2 ^ 48 = b at *
  split
  · have e : (a + 2 ^ 48 - b) % 2 ^ 48 = a - b := by omega
    rw [e]
  · have e : ((a + 2 ^ 48) % 2 ^ 64 + 2 ^ 64 - b) % 2 ^ 64 = (a + 2 ^ 48 - b) % 2 ^ 48 := by
      omega
    rw [e]

/-! ## C11 -/

/-- C11. For every window size and all head values, `has_overwritten(current_head,
stored_head)` is true if and only if `(current_head - stored_head) mod 2 ^ 48` is at
least the window size; the result is the one for the low 48 bits of the two
arguments, and it is the comparison of the window size with the wrap-aware forward
distance of spec section 4.3 taken on the masked values. -/
theorem has_overwritten_iff_distance_ge (h : LWHistory) (current_head stored_head : Nat) :
    (h.has_overwritten current_head stored_head = true ↔
      ((current_head : Int) - (stored_head : Int)) % 2 ^ 48 ≥ (h.hist_size_ : Int)) ∧
    h.has_overwritten current_head stored_head =
      h.has_overwritten (current_head % 2 ^ 48) (stored_head % 2 ^ 48) ∧
    h.has_overwritten current_head stored_head =
      decide ((if current_head % 2 ^ 48 ≥ stored_head % 2 ^ 48
                then current_head % 2 ^ 48 - stored_head % 2 ^ 48
                else current_head % 2 ^ 48 + 2 ^ 48 - stored_head % 2 ^ 48)
              ≥ h.hist_size_) := by
  refine ⟨?_, ?_, ?_⟩
  · rw [has_overwritten_eq_decide, decide_eq_true_eq]
    omega
  · rw [has_overwritten_eq_decide, has_overwritten_eq_decide, Nat.mod_mod, Nat.mod_mod]
  · rw [has_overwritten_eq_decide, decide_eq_decide]
    split <;> omega

/-! ## C12 -/

/-- C12. Boundary exactness of the history window: for a tracker constructed with a
window size `w` with `1 ≤ w` (`w` is a `uint32_t`, so `w < 2 ^ 32`) and every head
value `x`, `has_overwritten(x, x)` is false, `has_overwritten(x, (x - w) mod 2 ^ 48)`
is true and `has_overwritten(x, (x - (w - 1)) mod 2 ^ 48)` is false. -/
theorem has_overwritten_window_boundary (hist_size hist_base_raddr type x : Nat)
    (hpos : 1 ≤ hist_size) (h32 : hist_size < 2 ^ 32) :
    (LWHistory.new hist_size hist_base_raddr type).has_overwritten x x = false ∧
    (LWHistory.new hist_size hist_base_raddr type).has_overwritten x
      (((x : Int) - (hist_size : Int)) % 2 ^ 48).toNat = true ∧
    (LWHistory.new hist_size hist_base_raddr type).has_overwritten x
      (((x : Int) - ((hist_size : Int) - 1)) % 2 ^ 48).toNat = false := by
  have e1 : ((((x : Int) - (hist_size : Int)) % 2 ^ 48).toNat : Int)
      = ((x : Int) - (hist_size : Int)) % 2 ^ 48 :=
    Int.toNat_of_nonneg (Int.emod_nonneg _ (by norm_num))
  have e2 : ((((x : Int) - ((hist_size : Int) - 1)) % 2 ^ 48).toNat : Int)
      = ((x : Int) - ((hist_size : Int) - 1)) % 2 ^ 48 :=
    Int.toNat_of_nonneg (Int.emod_nonneg _ (by norm_num))
  generalize (((x : Int) - (hist_size : Int)) % 2 ^ 48).toNat = a at e1
  generalize (((x : Int) - ((hist_size : Int) - 1)) % 2 ^ 48).toNat = b at e2
  refine ⟨?_, ?_, ?_⟩
  · rw [has_overwritten_eq_decide, decide_eq_false_iff_not]
    simp only [LWHistory.new]
    omega
  · rw [has_overwritten_eq_decide, decide_eq_true_eq]
    simp only [LWHistory.new]
    omega
  · rw [has_overwritten_eq_decide, decide_eq_false_iff_not]
    simp only [LWHistory.new]
    omega

/-- C12 (witness). Window size 5 and a head just past the 48-bit wrap: the head
itself and the one 4 evictions back are within the window, the one 5 back is not. -/
theorem has_overwritten_window_boundary_witness :
    (1 ≤ 5 ∧ 5 < 2 ^ 32) ∧
    (LWHistory.new 5 4096 0).has_overwritten 3 3 = false ∧
    (LWHistory.new 5 4096 0).has_overwritten 3
      ((((3 : Nat) : Int) - ((5 : Nat) : Int)) % 2 ^ 48).toNat = true ∧
    (LWHistory.new 5 4096 0).has_overwritten 3
      ((((3 : Nat) : Int) - (((5 : Nat) : Int) - 1)) % 2 ^ 48).toNat = false :=
  ⟨by decide, has_overwritten_window_boundary 5 4096 0 3 (by decide) (by decide)⟩

/-! ## C13 -/

/-- C13. Wraparound invariance: for every window size and all heads, adding `2 ^ 48`
to both heads in 64-bit unsigned arithmetic does not change the result of
`has_overwritten`. -/
theorem has_overwritten_add_two_pow_48 (h : LWHistory) (current_head stored_head : Nat) :
    h.has_overwritten ((current_head + 2 ^ 48) % 2 ^ 64) ((stored_head + 2 ^ 48) % 2 ^ 64) =
      h.has_overwritten current_head stored_head := by
  rw [has_overwritten_eq_decide, has_overwritten_eq_decide]
  have e1 : (current_head + 2 ^ 48) % 2 ^ 64 % 2 ^ 48 = current_head % 2 ^ 48 := by omega
  have e2 : (stored_head + 2 ^ 48) % 2 ^ 64 % 2 ^ 48 = stored_head % 2 ^ 48 := by omega
  rw [e1, e2]

/-! ## C14 -/

/-- C14 (evaluation at the failing input). The factory builds a GDSF policy with
baseline 0; after `evict_callback(5.0)`, `parse_priority` for an object of size 10
whose metadata has frequency 2 returns 5, not 5 + 2/10: `freq / size` is a quotient
of integers. In general, for every baseline `L` and every non-zero size `k + 1` the
score is `L` plus the integer quotient of the frequency by the size. -/
theorem gdsf_parse_priority_integer_quotient :
    dmc_new_priority .GDSF = some (.GDSF 0) ∧
    (∀ env : Env, ((Priority.GDSF 0).evict_callback 5).parse_priority env
      { acc_info := { acc_ts := 0, ins_ts := 0, freq := 2, counter := 0 } } 10 =
        .value 5) ∧
    (5 : ℚ) ≠ 5 + 2 / 10 ∧
    (∀ (L : ℚ) (env : Env) (meta : SlotMeta) (k : Nat),
      ((Priority.GDSF 0).evict_callback L).parse_priority env meta (k + 1) =
        .value (L + ((meta.acc_info.freq / (k + 1) : Nat) : ℚ))) := by
  refine ⟨rfl, ?_, by norm_num, ?_⟩
  · intro env
    simp [Priority.evict_callback, Priority.parse_priority, GDSFPriority.parse_priority]
  · intro L env meta k
    simp [Priority.evict_callback, Priority.parse_priority, GDSFPriority.parse_priority]

/-! ## C15 -/

/-- C15. LRU-K with `K = 2`: for every slot metadata, `parse_priority` returns -1
when the access frequency is below 2, the access timestamp when the frequency is at
least 2 and even, and the counter when the frequency is at least 2 and odd. -/
theorem lruk_parse_priority_cases (env : Env) (meta : SlotMeta) (size : Nat) :
    dmc_new_priority .LRUK = some .LRUK ∧
    LRUKPriority.K_ = 2 ∧
    (meta.acc_info.freq < 2 →
      Priority.LRUK.parse_priority env meta size = .value (-1)) ∧
    (2 ≤ meta.acc_info.freq → meta.acc_info.freq % 2 = 0 →
      Priority.LRUK.parse_priority env meta size = .value meta.acc_info.acc_ts) ∧
    (2 ≤ meta.acc_info.freq → meta.acc_info.freq % 2 = 1 →
      Priority.LRUK.parse_priority env meta size = .value meta.acc_info.counter) := by
  refine ⟨rfl, rfl, ?_, ?_, ?_⟩
  · intro h
    simp [Priority.parse_priority, LRUKPriority.parse_priority, LRUKPriority.K_, h]
  · intro h2 he
    have h' : ¬ meta.acc_info.freq < 2 := by omega
    simp [Priority.parse_priority, LRUKPriority.parse_priority, LRUKPriority.K_, h', he]
  · intro h2 ho
    have h' : ¬ meta.acc_info.freq < 2 := by omega
    simp [Priority.parse_priority, LRUKPriority.parse_priority, LRUKPriority.K_, h', ho]

/-- C15 (witness). The scenario of spec section 8: frequency 1 scores -1, frequency 4
scores the access timestamp 1000, frequency 3 scores the counter 77. -/
theorem lruk_parse_priority_cases_witness :
    Priority.LRUK.parse_priority ⟨0, 0⟩
      { acc_info := { acc_ts := 1000, ins_ts := 10, freq := 1, counter := 77 } } 8
        = .value (-1) ∧
    Priority.LRUK.parse_priority ⟨0, 0⟩
      { acc_info := { acc_ts := 1000, ins_ts := 10, freq := 4, counter := 77 } } 8
        = .value ((1000 : Nat) : ℚ) ∧
    Priority.LRUK.parse_priority ⟨0, 0⟩
      { acc_info := { acc_ts := 1000, ins_ts := 10, freq := 3, counter := 77 } } 8
        = .value 77 :=
  ⟨(lruk_parse_priority_cases ⟨0, 0⟩
      { acc_info := { acc_ts := 1000, ins_ts := 10, freq := 1, counter := 77 } } 8).2.2.1
      (by decide),
    (lruk_parse_priority_cases ⟨0, 0⟩
      { acc_info := { acc_ts := 1000, ins_ts := 10, freq := 4, counter := 77 } } 8).2.2.2.1
      (by decide) (by decide),
    (lruk_parse_priority_cases ⟨0, 0⟩
      { acc_info := { acc_ts := 1000, ins_ts := 10, freq := 3, counter := 77 } } 8).2.2.2.2
      (by decide) (by decide)⟩

/-! ## C16 -/

/-- C16 (evaluation at the failing input). The factory builds a GDS policy with
baseline 0; after `evict_callback(5.0)` the objects of size 2 and of size 4 both
score 5, not 5 + 1/2 and 5 + 1/4, so the larger one is not scored strictly lower:
`1 / size` is a quotient of integers. In general every size `k + 2` scores the
baseline itself and size 1 scores the baseline plus 1. -/
theorem gds_parse_priority_integer_quotient :
    dmc_new_priority .GDS = some (.GDS 0) ∧
    (∀ (env : Env) (meta : SlotMeta),
      ((Priority.GDS 0).evict_callback 5).parse_priority env meta 2 = .value 5 ∧
      ((Priority.GDS 0).evict_callback 5).parse_priority env meta 4 = .value 5) ∧
    ((5 : ℚ) ≠ 5 + 1 / 2 ∧ ¬ ((5 : ℚ) < 5)) ∧
    (∀ (L : ℚ) (env : Env) (meta : SlotMeta) (k : Nat),
      ((Priority.GDS 0).evict_callback L).parse_priority env meta (k + 2) = .value L ∧
      ((Priority.GDS 0).evict_callback L).parse_priority env meta 1 = .value (L + 1)) := by
  refine ⟨rfl, ?_, by norm_num, ?_⟩
  · intro env meta
    constructor <;>
      simp [Priority.evict_callback, Priority.parse_priority, GDSPriority.parse_priority]
  · intro L env meta k
    have h1 : 1 / (k + 2) = 0 := Nat.div_eq_of_lt (by omega)
    constructor
    · simp [Priority.evict_callback, Priority.parse_priority, GDSPriority.parse_priority, h1]
    · simp [Priority.evict_callback, Priority.parse_priority, GDSPriority.parse_priority]

/-! ## C17 -/

/-- C17 (counterexample). Sizes 1 < 2 with access timestamps `2 * 10 ^ 11` and 0: the
smaller object scores `3 * 10 ^ 11`, the larger one `2 * 10 ^ 11`, so the smaller
size does not get the smaller score. -/
theorem size_priority_not_dominated_by_size :
    ¬ (∀ (meta₁ meta₂ : SlotMeta) (s₁ s₂ : Nat), s₁ < s₂ →
        SIZEPriority.parse_priority meta₁ s₁ < SIZEPriority.parse_priority meta₂ s₂) := by
  intro h
  have h' := h { acc_info := { acc_ts := 200000000000, ins_ts := 0, freq := 0, counter := 0 } }
    { acc_info := { acc_ts := 0, ins_ts := 0, freq := 0, counter := 0 } } 1 2 (by decide)
  norm_num [SIZEPriority.parse_priority] at h'

/-- C17 (amended). Under the SIZE policy (score = size * 10 ^ 11 + access timestamp,
in exact arithmetic), for sizes `s₁ < s₂` the score of the first object is below that
of the second exactly when `ts₁ < ts₂ + (s₂ - s₁) * 10 ^ 11`, in particular whenever
`ts₁ < ts₂ + 10 ^ 11`; for equal sizes the score order is the order of the access
timestamps. -/
theorem size_priority_order (meta₁ meta₂ : SlotMeta) (s₁ s₂ : Nat) :
    (s₁ < s₂ →
      (SIZEPriority.parse_priority meta₁ s₁ < SIZEPriority.parse_priority meta₂ s₂ ↔
        meta₁.acc_info.acc_ts < meta₂.acc_info.acc_ts + (s₂ - s₁) * 100000000000)) ∧
    (s₁ < s₂ → meta₁.acc_info.acc_ts < meta₂.acc_info.acc_ts + 100000000000 →
      SIZEPriority.parse_priority meta₁ s₁ < SIZEPriority.parse_priority meta₂ s₂) ∧
    (s₁ = s₂ →
      (SIZEPriority.parse_priority meta₁ s₁ < SIZEPriority.parse_priority meta₂ s₂ ↔
        meta₁.acc_info.acc_ts < meta₂.acc_info.acc_ts) ∧
      (SIZEPriority.parse_priority meta₁ s₁ = SIZEPriority.parse_priority meta₂ s₂ ↔
        meta₁.acc_info.acc_ts = meta₂.acc_info.acc_ts)) := by
  have key : ∀ a b c d : Nat,
      (((a : ℚ) * 100000000000 + (b : ℚ) < (c : ℚ) * 100000000000 + (d : ℚ)) ↔
        a * 100000000000 + b < c * 100000000000 + d) := by
    intro a b c d
    exact_mod_cast Iff.rfl
  have keyeq : ∀ a b c d : Nat,
      (((a : ℚ) * 100000000000 + (b : ℚ) = (c : ℚ) * 100000000000 + (d : ℚ)) ↔
        a * 100000000000 + b = c * 100000000000 + d) := by
    intro a b c d
    exact_mod_cast Iff.rfl
  unfold SIZEPriority.parse_priority
  refine ⟨?_, ?_, ?_⟩
  · intro hlt
    rw [key]
    obtain ⟨d, rfl⟩ : ∃ d, s₂ = s₁ + 1 + d := ⟨s₂ - s₁ - 1, by omega⟩
    have e : s₁ + 1 + d - s₁ = d + 1 := by omega
    rw [e]
    constructor <;> intro h <;> nlinarith
  · intro hlt hts
    rw [key]
    obtain ⟨d, rfl⟩ : ∃ d, s₂ = s₁ + 1 + d := ⟨s₂ - s₁ - 1, by omega⟩
    nlinarith
  · intro heq
    subst heq
    rw [key, keyeq]
    constructor <;> constructor <;> intro h <;> omega

/-- C17 (witness). Sizes 1 < 2 with timestamps 500 and 30, and size 3 on both sides
with timestamps 30 and 500. -/
theorem size_priority_order_witness :
    ((1 < 2 ∧ 500 < 30 + 100000000000) ∧
      SIZEPriority.parse_priority
          { acc_info := { acc_ts := 500, ins_ts := 0, freq := 0, counter := 0 } } 1 <
        SIZEPriority.parse_priority
          { acc_info := { acc_ts := 30, ins_ts := 0, freq := 0, counter := 0 } } 2) ∧
    (SIZEPriority.parse_priority
          { acc_info := { acc_ts := 30, ins_ts := 0, freq := 0, counter := 0 } } 3 <
        SIZEPriority.parse_priority
          { acc_info := { acc_ts := 500, ins_ts := 0, freq := 0, counter := 0 } } 3) :=
  ⟨⟨by decide,
      (size_priority_order
        { acc_info := { acc_ts := 500, ins_ts := 0, freq := 0, counter := 0 } }
        { acc_info := { acc_ts := 30, ins_ts := 0, freq := 0, counter := 0 } } 1 2).2.1
        (by decide) (by decide)⟩,
    ((size_priority_order
        { acc_info := { acc_ts := 30, ins_ts := 0, freq := 0, counter := 0 } }
        { acc_info := { acc_ts := 500, ins_ts := 0, freq := 0, counter := 0 } } 3 3).2.2
        rfl).1.2 (by decide)⟩

/-! ## Facts about the policy objects -/

/-- A policy object keeps its dynamic type under `evict_callback`: one that is
neither a `DumbPriority` nor a `HyperbolicPriority` stays so. -/
theorem foldl_evict_callback_kind (evs : List ℚ) :
    ∀ p : Priority, p ≠ .Dumb → p ≠ .Hyperbolic →
      evs.foldl Priority.evict_callback p ≠ .Dumb ∧
      evs.foldl Priority.evict_callback p ≠ .Hyperbolic := by
  induction evs with
  | nil => intro p h1 h2; exact ⟨h1, h2⟩
  | cons e evs ih =>
    intro p h1 h2
    simp only [List.foldl_cons]
    apply ih
    · cases p <;> simp_all [Priority.evict_callback]
    · cases p <;> simp_all [Priority.evict_callback]

/-! ## C18 -/

/-- C18 (counterexample). The factory builds a `DumbPriority` for the identifier
`EVICT_PRIO_NON`, and two calls of its `parse_priority` with the same metadata and
size return the values 1 and 2 of the random source; likewise the
`HyperbolicPriority` scores the same metadata (frequency 3, inserted at time 4) as 1/2
at clock value 10 and as 1 at clock value 7. -/
theorem parse_priority_depends_on_random_and_clock :
    ¬ (∀ (id : EvictionPolicyId) (p : Priority) (env₁ env₂ : Env) (meta : SlotMeta)
        (size : Nat), dmc_new_priority id = some p →
        p.parse_priority env₁ meta size = p.parse_priority env₂ meta size) ∧
    (dmc_new_priority .HYPERBOLIC = some .Hyperbolic ∧
      Priority.Hyperbolic.parse_priority ⟨10, 0⟩
        { acc_info := { acc_ts := 0, ins_ts := 4, freq := 3, counter := 0 } } 1
          = .value (1 / 2) ∧
      Priority.Hyperbolic.parse_priority ⟨7, 0⟩
        { acc_info := { acc_ts := 0, ins_ts := 4, freq := 3, counter := 0 } } 1
          = .value 1) := by
  refine ⟨?_, rfl, ?_, ?_⟩
  · intro h
    have h' := h .NON .Dumb ⟨0, 1⟩ ⟨0, 2⟩
      { acc_info := { acc_ts := 0, ins_ts := 0, freq := 0, counter := 0 } } 1 rfl
    simp [Priority.parse_priority, DumbPriority.parse_priority] at h'
  · norm_num [Priority.parse_priority, HyperbolicPriority.parse_priority]
  · norm_num [Priority.parse_priority, HyperbolicPriority.parse_priority]

/-- C18 (amended). For every policy object built by the factory for an identifier
other than `EVICT_PRIO_NON` (Dumb) and `EVICT_PRIO_HYPERBOLIC`, after any sequence of
`evict_callback` calls, `parse_priority` is a function of the metadata, the size and
the baseline alone: two calls with the same metadata and size return the same result
whatever the clock and the random source are. The Dumb policy returns the value of
the random source, and the Hyperbolic policy depends on the environment through the
clock only. -/
theorem parse_priority_pure_except_dumb_hyperbolic (id : EvictionPolicyId)
    (p₀ : Priority) (evs : List ℚ) (env₁ env₂ : Env) (meta : SlotMeta) (size : Nat)
    (hnew : dmc_new_priority id = some p₀) (hdumb : id ≠ .NON)
    (hhyp : id ≠ .HYPERBOLIC) :
    (evs.foldl Priority.evict_callback p₀).parse_priority env₁ meta size =
      (evs.foldl Priority.evict_callback p₀).parse_priority env₂ meta size ∧
    Priority.Dumb.parse_priority env₁ meta size = .value (env₁.random : ℚ) ∧
    (env₁.new_ts = env₂.new_ts →
      Priority.Hyperbolic.parse_priority env₁ meta size =
        Priority.Hyperbolic.parse_priority env₂ meta size) := by
  refine ⟨?_, rfl, ?_⟩
  · have h1 : p₀ ≠ .Dumb := by
      intro h
      subst h
      cases id <;> simp_all [dmc_new_priority]
    have h2 : p₀ ≠ .Hyperbolic := by
      intro h
      subst h
      cases id <;> simp_all [dmc_new_priority]
    obtain ⟨k1, k2⟩ := foldl_evict_callback_kind evs p₀ h1 h2
    generalize evs.foldl Priority.evict_callback p₀ = p at k1 k2
    cases p <;> first | rfl | exact absurd rfl k1 | exact absurd rfl k2
  · intro h
    simp only [Priority.parse_priority, HyperbolicPriority.parse_priority, h]

/-- C18 (witness). The GDSF policy after the callbacks 3 and 5 scores a slot of
frequency 20 and size 10 the same under two different clocks and random values. -/
theorem parse_priority_pure_except_dumb_hyperbolic_witness :
    (dmc_new_priority .GDSF = some (.GDSF 0) ∧
      EvictionPolicyId.GDSF ≠ .NON ∧ EvictionPolicyId.GDSF ≠ .HYPERBOLIC) ∧
    ([3, 5].foldl Priority.evict_callback (.GDSF 0)).parse_priority ⟨10, 1⟩
        { acc_info := { acc_ts := 0, ins_ts := 4, freq := 20, counter := 0 } } 10 =
      ([3, 5].foldl Priority.evict_callback (.GDSF 0)).parse_priority ⟨7, 2⟩
        { acc_info := { acc_ts := 0, ins_ts := 4, freq := 20, counter := 0 } } 10 :=
  ⟨⟨rfl, by decide, by decide⟩,
    (parse_priority_pure_except_dumb_hyperbolic .GDSF (.GDSF 0) [3, 5] ⟨10, 1⟩ ⟨7, 2⟩
      { acc_info := { acc_ts := 0, ins_ts := 4, freq := 20, counter := 0 } } 10
      rfl (by decide) (by decide)).1⟩

/-! ## C19 -/

/-- C19. `add_segment` with a base address equal to that of a registered segment
ends in the fatal assertion, for every `rkey` and `server`: the base-class call
already fails, so no segment list and no allocator state with a new segment or new
blocks results. With an address different from all registered base addresses the
assertion never fires and the segment is recorded by the base-class call; the whole
call then returns whenever the block size is not zero and the block count stays
within the range of the loop counter. -/
theorem add_segment_duplicate_asserts (mm : ClientUniformMM) (r_addr rkey server : Nat) :
    ((∃ s ∈ mm.remote_segment_list_, s.addr = r_addr) →
      ClientMM.add_segment mm.remote_segment_list_ r_addr rkey server
        = .error .assertFailed ∧
      mm.add_segment r_addr rkey server = .error .assertFailed ∧
      run mm [.add_segment r_addr rkey server] = .error .assertFailed) ∧
    ((∀ s ∈ mm.remote_segment_list_, s.addr ≠ r_addr) →
      ClientMM.add_segment mm.remote_segment_list_ r_addr rkey server =
        .ok (mm.remote_segment_list_ ++ [{ addr := r_addr, rkey := rkey, server := server }]) ∧
      mm.add_segment r_addr rkey server ≠ .error .assertFailed ∧
      (0 < mm.uni_block_size_ → mm.segment_size_ / mm.uni_block_size_ < 2 ^ 31 →
        ∃ mm', mm.add_segment r_addr rkey server = .ok mm')) := by
  constructor
  · rintro ⟨s, hs, rfl⟩
    have hany : (mm.remote_segment_list_.any fun t => t.addr == s.addr) = true := by
      rw [List.any_eq_true]
      exact ⟨s, hs, by simp⟩
    have hbase : ClientMM.add_segment mm.remote_segment_list_ s.addr rkey server
        = .error .assertFailed := by
      simp [ClientMM.add_segment, hany]
    have hfull : mm.add_segment s.addr rkey server = .error .assertFailed := by
      simp [ClientUniformMM.add_segment, hbase]
    refine ⟨hbase, hfull, ?_⟩
    simp [run, step, hfull]
  · intro hnew
    have hany : (mm.remote_segment_list_.any fun t => t.addr == r_addr) = false := by
      rw [List.any_eq_false]
      intro t ht
      simpa using hnew t ht
    have hbase : ClientMM.add_segment mm.remote_segment_list_ r_addr rkey server =
        .ok (mm.remote_segment_list_ ++ [{ addr := r_addr, rkey := rkey, server := server }]) := by
      simp [ClientMM.add_segment, hany]
    refine ⟨hbase, ?_, ?_⟩
    · unfold ClientUniformMM.add_segment
      rw [hbase]
      simp only
      split
      · simp
      · split <;> simp
    · intro hblk hcnt
      exact ⟨_, add_segment_eq_ok mm r_addr rkey server hnew hblk hcnt⟩

/-- C19 (witness). On the scenario allocator the registered address `0x10000` is
refused for another key and server, and the fresh address `0x20000` is accepted. -/
theorem add_segment_duplicate_asserts_witness :
    (∃ s ∈ mm4096.remote_segment_list_, s.addr = 65536) ∧
    mm4096.add_segment 65536 99 3 = .error .assertFailed ∧
    (∀ s ∈ mm4096.remote_segment_list_, s.addr ≠ 131072) ∧
    mm4096.add_segment 131072 99 3 ≠ .error .assertFailed :=
  ⟨⟨⟨65536, 7, 1⟩, by decide, rfl⟩,
    ((add_segment_duplicate_asserts mm4096 65536 99 3).1
      ⟨⟨65536, 7, 1⟩, by decide, rfl⟩).2.1,
    by decide,
    ((add_segment_duplicate_asserts mm4096 131072 99 3).2 (by decide)).2.1⟩

/-! ## C20 -/

/-- C20 (evaluation at the failing input). On the scenario allocator (one segment,
4096 registered bytes) a caller allocates a block and frees that same block, five
times over. Every `alloc` succeeds, afterwards all four blocks are in the free pool,
but `used_block_map_` holds five entries, `5 * 1024` exceeds `1 * 4096`, and the
unsigned subtraction in `get_free_size()` wraps to `2 ^ 64 - 1024`, far above the
registered bytes. -/
theorem get_free_size_underflows_after_five_cycles :
    (ClientUniformMM.new conf4096).add_segment 65536 7 1 = .ok mm4096 ∧
    ((alloc_then_free 1024)^[4] mm4096).free_block_list_ = mm4096.free_block_list_ ∧
    (((alloc_then_free 1024)^[4] mm4096).alloc 1024).ret = 0 ∧
    (((alloc_then_free 1024)^[4] mm4096).alloc 1024).r_block
      = some ⟨65536, 7, 1024, 1⟩ ∧
    ((alloc_then_free 1024)^[5] mm4096).free_block_list_.length = 4 ∧
    ((alloc_then_free 1024)^[5] mm4096).used_block_map_.length = 5 ∧
    ((alloc_then_free 1024)^[5] mm4096).remote_segment_list_.length *
      ((alloc_then_free 1024)^[5] mm4096).segment_size_ = 4096 ∧
    ((alloc_then_free 1024)^[5] mm4096).get_free_size = 2 ^ 64 - 1024 ∧
    ¬ (((alloc_then_free 1024)^[5] mm4096).get_free_size ≤ 4096) := by
  decide

end Ditto
